import Mathlib

/-!
Shallow embedding of `brian2tools/mdexport/expander.py` (class `Std_mdexpander`),
the standard markdown expander that turns the "standard dictionary"
representation of a Brian network into markdown prose.

Python strings are modelled by Lean `String` (Python slicing is by code
points, so `s[:-2]` is modelled on `String.data`).  Python dictionaries of
fixed schema become structures; `dict.items()` iteration order (insertion
order) becomes association lists.  The opaque symbolic-math renderer
(`sympy.printing.latex` together with `str_to_sympy` / `Quantity`
stringification) is a parameter `latexR` of the model, as the spec treats it
as an opaque text-to-markup function.  Exceptions (`IndexError`,
`Exception`, the `ValueError` of a failed 2-tuple unpacking) are modelled
with `Except`.
-/

/-- Python `str` of `n` repeated spaces, used for the whitespace that
backslash-continued string literals in the source embed into the text. -/
def spaces (n : Nat) : String := String.mk (List.replicate n ' ')

/-- Python `sep.join(xs)`. -/
def joinSep (sep : String) : List String → String
  | [] => ""
  | [s] => s
  | s :: rest => s ++ sep ++ joinSep sep rest

/-- Concatenation of a list of strings (repeated `+=` in a Python loop). -/
def strconcat : List String → String
  | [] => ""
  | s :: rest => s ++ strconcat rest

/-- Python slice `s[:-n]` (by code points). -/
def pyDropLast (n : Nat) (s : String) : String :=
  String.mk (s.data.take (s.data.length - n))

/-- Python slice `s[n:]` (by code points). -/
def pyDropFirst (n : Nat) (s : String) : String := String.mk (s.data.drop n)

/-- Whether the first character list is a prefix of the second. -/
def isPrefixChars : List Char → List Char → Bool
  | [], _ => true
  | _ :: _, [] => false
  | p :: ps, c :: cs => p = c && isPrefixChars ps cs

/-- Whether the first character list occurs contiguously in the second. -/
def isInfixChars (pat : List Char) : List Char → Bool
  | [] => isPrefixChars pat []
  | c :: cs => isPrefixChars pat (c :: cs) || isInfixChars pat cs

/-- Python `pat in s` substring test. -/
def strContains (s pat : String) : Bool := isInfixChars pat.data s.data

/-- Python `str.replace` on character lists (non-overlapping, left to
right); the `fuel` argument keeps the recursion structural and is
instantiated with the length of the subject. -/
def replaceFuel (pat rep : List Char) : Nat → List Char → List Char
  | 0, s => s
  | _ + 1, [] => []
  | fuel + 1, c :: cs =>
    if isPrefixChars pat (c :: cs) ∧ pat ≠ [] then
      rep ++ replaceFuel pat rep fuel (List.drop (pat.length - 1) cs)
    else c :: replaceFuel pat rep fuel cs

/-- Python `s.replace(pat, rep)` (for the non-empty patterns the source
uses). -/
def pyReplace (s pat rep : String) : String :=
  String.mk (replaceFuel pat.data rep.data s.data.length s.data)

/-- Splitting a character list at every character satisfying `p`, keeping
empty pieces (the behavior of `re.split` on single-character
alternatives). -/
def splitChars (p : Char → Bool) : List Char → List (List Char)
  | [] => [[]]
  | c :: rest =>
    if p c then [] :: splitChars p rest
    else
      match splitChars p rest with
      | [] => [[c]]
      | q :: qs => (c :: q) :: qs

/-- Python `re.split(';|\n', s)`: split on every `;` and newline, keeping
empty pieces. -/
def pySplit (s : String) : List String :=
  (splitChars (fun c => c = ';' || c = '\n') s.data).map String.mk

/-- Python `re.split('-=|\+=|=', s)` on the character list: scanning left to
right, each occurrence of `-=`, `+=` or `=` separates two pieces (the
two-character operators are tried first, as in the regex alternation). -/
def splitAssignChars : List Char → List (List Char)
  | [] => [[]]
  | '-' :: '=' :: rest => [] :: splitAssignChars rest
  | '+' :: '=' :: rest => [] :: splitAssignChars rest
  | '=' :: rest => [] :: splitAssignChars rest
  | c :: rest =>
    match splitAssignChars rest with
    | [] => [[c]]
    | p :: ps => (c :: p) :: ps

/-- Python `re.split('-=|\+=|=', s)`. -/
def splitAssign (s : String) : List String :=
  (splitAssignChars s.data).map String.mk

/-- Markdown helpers from the external `markdown_strings` package, which the
spec treats as opaque string templates: atx-style header. -/
def header (text : String) (level : Nat) : String :=
  String.mk (List.replicate level '#') ++ " " ++ text

/-- Markdown bold from the external `markdown_strings` package. -/
def bold (text : String) : String := "**" ++ text ++ "**"

/-- Markdown horizontal rule from the external `markdown_strings` package
(the exact text is irrelevant to this development). -/
def horizontal_rule : String := String.mk (List.replicate 79 '-')

/-- Delimiters defined at the top of `expander.py`. -/
def endll : String := "\n\n"

/-- Single newline delimiter from `expander.py`. -/
def endl : String := "\n"

/-- Tab delimiter from `expander.py`. -/
def tab : String := "\t"

/-- Python exceptions that the embedded code can raise: `IndexError` from
`check_plural`, bare `Exception` from `check_plural`, and the `ValueError`
of the failed unpacking `lhs, rhs = re.split(...)` in
`prepare_math_statements`. -/
inductive PyErr where
  | indexError
  | exception
  | valueError
deriving DecidableEq, Repr

/-- What `check_plural` observes about its argument: an object with an
`__iter__` attribute yielding `n` elements, or a non-iterable object. -/
inductive Iterability where
  | iter (n : Nat)
  | noniter
deriving DecidableEq, Repr

/-- `Std_mdexpander.check_plural`: counts the elements of `iterable`; on
reaching a second element it returns `'s'`, or the irregular plural from
`singular_plural_dict` (`index` / `property`) when `singular_word` is given,
raising `Exception` when the word is not in that dictionary; for a
non-iterable it raises `IndexError` unless `allow_constants`; in all other
cases it returns the empty string. -/
def check_plural (iterable : Iterability) (singular_word : Option String)
    (allow_constants : Bool) : Except PyErr String :=
  match iterable with
  | .iter n =>
    if 1 < n then
      match singular_word with
      | some w =>
        if w = "index" then .ok "indices"
        else if w = "property" then .ok "properties"
        else .error .exception
      | none => .ok "s"
    else .ok ""
  | .noniter => if allow_constants then .ok "" else .error .indexError

/-- The part of the `Std_mdexpander` object's state that the expand methods
read: the opaque latex renderer (expression, differential flag) and the
`github_md` flag that `create_md_string` stores on `self`. -/
structure Renderer where
  latexR : String → Bool → String
  github_md : Bool

/-- The `Std_mdexpander` object: the opaque renderer plus the two attributes
the class mutates (`github_md`, `md_text`). -/
structure MdExpander where
  latexR : String → Bool → String
  github_md : Bool
  md_text : String

/-- `Std_mdexpander.render_expression`: renders through the opaque latex
printer, strips the `_placeholder_{arg}` and `\operatorname` artifacts, and
removes the `$$`/`$` wrappers (wrapping in a GitHub image link when
`github_md`). -/
def render_expression (e : Renderer) (expression : String)
    (differential : Bool) : String :=
  let rend_exp := e.latexR expression differential
  let rend_exp := pyReplace rend_exp "_placeholder_{arg}" "-"
  let rend_exp := pyReplace rend_exp "\\operatorname" ""
  if e.github_md then
    "<img src=\"https://render.githubusercontent.com/render/math?math=" ++
      pyDropLast 2 (pyDropFirst 2 rend_exp) ++ "\">"
  else
    pyDropLast 1 (pyDropFirst 1 rend_exp)

/-- Loop body of `Std_mdexpander.prepare_math_statements`: processes each
piece in order, appending `', '` after every piece.  With `separate`, a
piece containing an assignment operator is split by `re.split('-=|\+=|=')`
and unpacked into `lhs, rhs` (raising `ValueError` when the split does not
have exactly two parts); otherwise the whole piece is rendered with the
`differential` flag. -/
def pms_loop (e : Renderer) (differential separate : Bool) (equals : String) :
    List String → Except PyErr String
  | [] => pure ""
  | statement :: rest => do
    let piece ←
      if separate then
        if strContains statement "+=" || strContains statement "=" ||
            strContains statement "-=" then
          match splitAssign statement with
          | [lhs, rhs] =>
            if strContains statement "+=" then
              pure (render_expression e lhs false ++ "+=" ++
                render_expression e rhs false)
            else if strContains statement "-=" then
              pure (render_expression e lhs false ++ "-=" ++
                render_expression e rhs false)
            else
              pure (render_expression e lhs false ++ equals ++
                render_expression e rhs false)
          | _ => .error .valueError
        else pure ""
      else pure (render_expression e statement differential)
    let srest ← pms_loop e differential separate equals rest
    pure (piece ++ ", " ++ srest)

/-- `Std_mdexpander.prepare_math_statements`: split on `;` and newlines,
process the pieces in order, and drop the final `', '`. -/
def prepare_math_statements (e : Renderer) (statements : String)
    (differential separate : Bool) (equals : String) :
    Except PyErr String := do
  let rend_str ← pms_loop e differential separate equals (pySplit statements)
  pure (pyDropLast 2 rend_str)

/-- Dynamic value found under keys like `initializer['index']`,
`connector['i']` and `connector['j']`: a Python `str`, `bool`, plain number
(non-iterable), or a list of numbers (iterable). -/
inductive IndexVal where
  | str (s : String)
  | bool (b : Bool)
  | int (n : Int)
  | list (xs : List Int)
deriving DecidableEq, Repr

/-- Attributes possessed by the modelled values that the source queries via
`hasattr` (only `__iter__` is ever relevant): strings and lists are
iterable, booleans and plain numbers are not. -/
def IndexVal.attrs : IndexVal → List String
  | .str _ => ["__iter__"]
  | .bool _ => []
  | .int _ => []
  | .list _ => ["__iter__"]

/-- Python `hasattr(x, a)` for the modelled values. -/
def IndexVal.hasattr (x : IndexVal) (a : String) : Bool := a ∈ x.attrs

/-- What `check_plural` sees when handed the value: strings iterate over
their characters, lists over their elements. -/
def IndexVal.iterability : IndexVal → Iterability
  | .str s => .iter s.data.length
  | .bool _ => .noniter
  | .int _ => .noniter
  | .list xs => .iter xs.length

/-- Python truthiness of the modelled values. -/
def IndexVal.pyTruthy : IndexVal → Bool
  | .str s => s ≠ ""
  | .bool b => b
  | .int n => n ≠ 0
  | .list xs => xs ≠ []

/-- Python `str(x)` of the modelled values. -/
def IndexVal.pyStr : IndexVal → String
  | .str s => s
  | .bool b => if b then "True" else "False"
  | .int n => toString n
  | .list xs => "[" ++ joinSep ", " (xs.map toString) ++ "]"

/-- Whether the value is a Python `str` (`isinstance(x, str)`). -/
def IndexVal.isStr : IndexVal → Bool
  | .str _ => true
  | _ => false

/-- Whether the value is a Python `bool` (`isinstance(x, bool)`). -/
def IndexVal.isBool : IndexVal → Bool
  | .bool _ => true
  | _ => false

/-- The underlying string of a `str` value (only used under `isStr`). -/
def IndexVal.strVal : IndexVal → String
  | .str s => s
  | _ => ""

/-- The elements of a list value (only used under `hasattr "__iter__"`). -/
def IndexVal.elems : IndexVal → List Int
  | .list xs => xs
  | _ => []

/-- An identifier's value: a plain value (`Quantity`, string or number,
handed to `render_expression`), or the dictionary form used for
`TimedArray` and custom functions, whose `ndim` and `dt` entries are only
present (and only read) when `type` is `'timedarray'`. -/
inductive IdentValue where
  | plain (v : String)
  | dict (type : String) (ndim : String) (dt : String)
deriving DecidableEq, Repr

/-- Identifier dictionaries in `dict.items()` (insertion) order. -/
def Identifiers : Type := List (String × IdentValue)

/-- `Std_mdexpander.expand_identifier` (key-value form); ends with `', '`.
The CPython `is 'timedarray'` test on interned literals is modelled as
string equality. -/
def expand_identifier (e : Renderer) (ident_key : String)
    (ident_value : IdentValue) : String :=
  let ident_str :=
    match ident_value with
    | .plain v =>
      render_expression e ident_key false ++ ": " ++ render_expression e v false
    | .dict type ndim dt =>
      let s := render_expression e ident_key false ++ " of type " ++ type
      if type = "timedarray" then
        s ++ " with dimension " ++ render_expression e ndim false ++
          " and dt as " ++ render_expression e dt false
      else s
  ident_str ++ ", "

/-- Loop of `Std_mdexpander.expand_identifiers` over `identifiers.items()`. -/
def expand_identifiers_loop (e : Renderer) : List (String × IdentValue) → String
  | [] => ""
  | (key, value) :: rest =>
    expand_identifier e key value ++ expand_identifiers_loop e rest

/-- `Std_mdexpander.expand_identifiers`: loops `expand_identifier` and wraps
the result as `tab + idents_str[:-2] + endll`. -/
def expand_identifiers (e : Renderer) (identifiers : List (String × IdentValue)) :
    String :=
  tab ++ pyDropLast 2 (expand_identifiers_loop e identifiers) ++ endll

/-- Details of one event (`events[name]`): `threshold.code`, and the
optional `reset.code` and `refractory` entries. -/
structure EventDetails where
  threshold_code : String
  reset_code : Option String
  refractory : Option String
deriving DecidableEq, Repr

/-- `Std_mdexpander.expand_event`. -/
def expand_event (e : Renderer) (event_name : String)
    (event_details : EventDetails) : Except PyErr String := do
  let event_str := tab ++ "Event " ++ bold event_name ++ ", " ++
    "after " ++ render_expression e event_details.threshold_code false
  let event_str ←
    match event_details.reset_code with
    | some code => do
      let r ← prepare_math_statements e code false true "&#8592;"
      pure (event_str ++ ", " ++ r)
    | none => pure event_str
  let event_str :=
    match event_details.refractory with
    | some refractory =>
      event_str ++ ", with refractory " ++ render_expression e refractory false
    | none => event_str
  pure (event_str ++ endll)

/-- `Std_mdexpander.expand_events`: loop over `events.items()`. -/
def expand_events (e : Renderer) : List (String × EventDetails) →
    Except PyErr String
  | [] => pure ""
  | (name, details) :: rest => do
    let s ← expand_event e name details
    let srest ← expand_events e rest
    pure (s ++ srest)

/-- One equation of the `equations` dictionary: its `type`, optional
`expr`, the `str` of its `unit`, and the optional `flags` list. -/
structure Equation where
  type : String
  expr : Option String
  unit : String
  flags : Option (List String)
deriving DecidableEq, Repr

/-- `Std_mdexpander.expand_equation`. -/
def expand_equation (e : Renderer) (var : String) (equation : Equation) :
    Except PyErr String := do
  let rend_eqn :=
    if equation.type = "differential equation" then
      render_expression e var true
    else if equation.type = "subexpression" then
      render_expression e var false
    else
      "Parameter " ++ render_expression e var false
  let rend_eqn :=
    match equation.expr with
    | some expr => rend_eqn ++ "=" ++ render_expression e expr false
    | none => rend_eqn
  let rend_eqn := rend_eqn ++ ", where unit of " ++
    render_expression e var false ++ " is " ++ equation.unit
  let rend_eqn ←
    match equation.flags with
    | some flags => do
      let pl ← check_plural (.iter flags.length) none true
      pure (rend_eqn ++ " and " ++ joinSep ", " flags ++ " as flag" ++ pl ++
        " associated")
    | none => pure rend_eqn
  pure (tab ++ rend_eqn ++ endll)

/-- `Std_mdexpander.expand_equations`: loop over `equations.items()`. -/
def expand_equations (e : Renderer) : List (String × Equation) →
    Except PyErr String
  | [] => pure ""
  | (var, equation) :: rest => do
    let s ← expand_equation e var equation
    let srest ← expand_equations e rest
    pure (s ++ srest)

/-- A `run_regularly` entry: its `dt` and `code`. -/
structure RunReg where
  dt : String
  code : String
deriving DecidableEq, Repr

/-- `Std_mdexpander.expand_runregularly`. -/
def expand_runregularly (e : Renderer) (run_reg : RunReg) :
    Except PyErr String := do
  let c ← prepare_math_statements e run_reg.code false true "&#8592;"
  pure (tab ++ "For every " ++ render_expression e run_reg.dt false ++
    " code: " ++ c ++ " will be executed" ++ endll)

/-- Loop `for run_reg in ...: md_str += self.expand_runregularly(run_reg)`. -/
def runreg_loop (e : Renderer) : List RunReg → Except PyErr String
  | [] => pure ""
  | rr :: rest => do
    let s ← expand_runregularly e rr
    let srest ← runreg_loop e rest
    pure (s ++ srest)

/-- Python truthiness of `neurongrp['user_method']` (`None` and the empty
string are falsy). -/
def truthyOS : Option String → Bool
  | none => false
  | some s => s ≠ ""

/-- Standard dictionary of a `NeuronGroup`. -/
structure NeuronGroup where
  name : String
  N : Nat
  equations : List (String × Equation)
  user_method : Option String
  events : Option (List (String × EventDetails))
  identifiers : Option (List (String × IdentValue))
  run_regularly : Option (List RunReg)

/-- `Std_mdexpander.expand_NeuronGroup`. -/
def expand_NeuronGroup (e : Renderer) (neurongrp : NeuronGroup) :
    Except PyErr String := do
  let md_str := "Name " ++ bold neurongrp.name ++ ", with" ++ spaces 17 ++
    "population size " ++ bold (toString neurongrp.N) ++ "." ++ endll
  let md_str := md_str ++ tab ++ bold "Dynamics:" ++ endll
  let eqs ← expand_equations e neurongrp.equations
  let md_str := md_str ++ eqs
  let md_str :=
    if truthyOS neurongrp.user_method then
      md_str ++ tab ++ neurongrp.user_method.getD "" ++
        " method is used for integration" ++ endll
    else md_str
  let md_str ←
    match neurongrp.events with
    | some events => do
      let es ← expand_events e events
      pure (md_str ++ tab ++ bold "Events:" ++ endll ++ es)
    | none => pure md_str
  let md_str :=
    match neurongrp.identifiers with
    | some idents =>
      md_str ++ tab ++ bold "Constants:" ++ endll ++ expand_identifiers e idents
    | none => md_str
  let md_str ←
    match neurongrp.run_regularly with
    | some rrs => do
      let pl ← check_plural (.iter rrs.length) none true
      let body ← runreg_loop e rrs
      pure (md_str ++ tab ++ bold "Run regularly" ++ pl ++ ": " ++ endll ++ body)
    | none => pure md_str
  pure md_str

/-- Standard dictionary of a `PoissonGroup`. -/
structure PoissonGroup where
  name : String
  N : Nat
  rates : String
  identifiers : Option (List (String × IdentValue))
  run_regularly : Option (List RunReg)

/-- `Std_mdexpander.expand_PoissonGroup`. -/
def expand_PoissonGroup (e : Renderer) (poisngrp : PoissonGroup) :
    Except PyErr String := do
  let md_str := tab ++ "Name " ++ bold poisngrp.name ++ ", with" ++ spaces 17 ++
    "population size " ++ bold (toString poisngrp.N) ++ " and rate as " ++
    render_expression e poisngrp.rates false ++ "." ++ endll
  let md_str :=
    match poisngrp.identifiers with
    | some idents =>
      md_str ++ tab ++ bold "Constants:" ++ endll ++ expand_identifiers e idents
    | none => md_str
  let md_str ←
    match poisngrp.run_regularly with
    | some rrs => do
      let body ← runreg_loop e rrs
      pure (md_str ++ tab ++ bold "Run regularly: " ++ endll ++ body)
    | none => pure md_str
  pure md_str

/-- Standard dictionary of a `SpikeGeneratorGroup` (`times` holds the `str`
forms of the `Quantity` values, `period` the `str` of the period). -/
structure SpikeGeneratorGroup where
  name : String
  N : Nat
  indices : List Int
  times : List String
  period : String
  run_regularly : Option (List RunReg)

/-- `Std_mdexpander.expand_SpikeGeneratorGroup`. -/
def expand_SpikeGeneratorGroup (e : Renderer) (spkgen : SpikeGeneratorGroup) :
    Except PyErr String := do
  let pl ← check_plural (.iter spkgen.indices.length) none true
  let md_str := tab ++ "Name " ++ bold spkgen.name ++
    ", with population size " ++ bold (toString spkgen.N) ++
    ", has neuron" ++ pl ++ ": " ++
    joinSep ", " (spkgen.indices.map toString) ++
    " that spike at times " ++ joinSep ", " spkgen.times ++
    ", with period " ++ spkgen.period ++ "." ++ endll
  let md_str ←
    match spkgen.run_regularly with
    | some rrs => do
      let body ← runreg_loop e rrs
      pure (md_str ++ tab ++ bold "Run regularly: " ++ endll ++ body)
    | none => pure md_str
  pure md_str

/-- The `record` entry of a monitor dictionary: a Python `bool`, or a
(numpy) array of indices whose `size` is its length. -/
inductive RecordVal where
  | bool (b : Bool)
  | arr (xs : List Int)
deriving DecidableEq, Repr

/-- Standard dictionary of a `StateMonitor`. -/
structure StateMonitor where
  «variables» : List String
  source : String
  record : RecordVal
deriving DecidableEq, Repr

/-- `Std_mdexpander.expand_StateMonitor`. -/
def expand_StateMonitor (e : Renderer) (statemon : StateMonitor) :
    Except PyErr String := do
  let pl ← check_plural (.iter statemon.«variables».length) none true
  let md_str := tab ++ "Monitors variable" ++ pl ++ ": " ++
    joinSep "," (statemon.«variables».map (fun var => render_expression e var false)) ++
    " of " ++ statemon.source
  match statemon.record with
  | .bool b => pure (if b then md_str ++ " for all members" else md_str)
  | .arr xs =>
    if xs.length = 0 then pure (md_str ++ " for no member")
    else do
      let plr ← check_plural (.iter xs.length) none true
      pure (md_str ++ ", for member" ++ plr ++ ": " ++
        joinSep "," (xs.map toString) ++ "." ++ endll)

/-- Standard dictionary of an `EventMonitor` (and of a `SpikeMonitor`,
which `expand_SpikeMonitor` forwards here). -/
structure EventMonitor where
  «variables» : List String
  source : String
  record : RecordVal
  event : String
deriving DecidableEq, Repr

/-- `Std_mdexpander.expand_EventMonitor`. -/
def expand_EventMonitor (e : Renderer) (eventmon : EventMonitor) :
    Except PyErr String := do
  let pl ← check_plural (.iter eventmon.«variables».length) none true
  let md_str := tab ++ "Monitors variable" ++ pl ++ ": " ++
    joinSep "," (eventmon.«variables».map (fun var => render_expression e var false)) ++
    " of " ++ eventmon.source
  let md_str ←
    match eventmon.record with
    | .bool b => pure (if b then md_str ++ " for all members" else md_str)
    | .arr xs =>
      if xs.length = 0 then pure (md_str ++ " for no member")
      else do
        let plr ← check_plural (.iter xs.length) none true
        pure (md_str ++ ", for member" ++ plr ++ ": " ++
          joinSep "," (xs.map toString))
  pure (md_str ++ " when event " ++ bold eventmon.event ++ " is triggered." ++
    endll)

/-- `Std_mdexpander.expand_SpikeMonitor`: delegates to
`expand_EventMonitor`. -/
def expand_SpikeMonitor (e : Renderer) (spikemon : EventMonitor) :
    Except PyErr String :=
  expand_EventMonitor e spikemon

/-- Standard dictionary of a `PopulationRateMonitor`. -/
structure PopulationRateMonitor where
  source : String
deriving DecidableEq, Repr

/-- `Std_mdexpander.expand_PopulationRateMonitor`. -/
def expand_PopulationRateMonitor (_e : Renderer)
    (popratemon : PopulationRateMonitor) : Except PyErr String :=
  pure (tab ++ "Monitors the population of " ++ popratemon.source ++ "." ++
    endll)

/-- A `SynapticPathway` dictionary. -/
structure Pathway where
  prepost : String
  event : String
  code : String
  delay : Option String

/-- `Std_mdexpander.expand_pathway`. -/
def expand_pathway (e : Renderer) (pathway : Pathway) : Except PyErr String := do
  let c ← prepare_math_statements e pathway.code false true "&#8592;"
  let md_str := tab ++ "On " ++ bold pathway.prepost ++ " of event " ++
    pathway.event ++ " statements: " ++ c ++ " executed"
  let md_str :=
    match pathway.delay with
    | some delay =>
      md_str ++ ", with synaptic delay of " ++ render_expression e delay false
    | none => md_str
  pure (md_str ++ endll)

/-- `Std_mdexpander.expand_pathways`. -/
def expand_pathways (e : Renderer) : List Pathway → Except PyErr String
  | [] => pure ""
  | p :: rest => do
    let s ← expand_pathway e p
    let srest ← expand_pathways e rest
    pure (s ++ srest)

/-- A summed-variable dictionary. -/
structure SummedVariable where
  target : String
  code : String

/-- `Std_mdexpander.expand_summed_variable`. -/
def expand_summed_variable (e : Renderer) (sum_variable : SummedVariable) :
    String :=
  tab ++ "Updates target group " ++ sum_variable.target ++
    " with statement: " ++ render_expression e sum_variable.code false ++ endll

/-- `Std_mdexpander.expand_summed_variables`. -/
def expand_summed_variables (e : Renderer) : List SummedVariable → String
  | [] => ""
  | sv :: rest => expand_summed_variable e sv ++ expand_summed_variables e rest

/-- Standard dictionary of a `Synapses` object. -/
structure Synapses where
  source : String
  target : String
  equations : Option (List (String × Equation))
  user_method : Option String
  pathways : Option (List Pathway)
  summed_variables : Option (List SummedVariable)
  identifiers : Option (List (String × IdentValue))

/-- `Std_mdexpander.expand_Synapses`. -/
def expand_Synapses (e : Renderer) (synapse : Synapses) :
    Except PyErr String := do
  let md_str := tab ++ "From " ++ synapse.source ++ " to " ++ synapse.target ++
    endll
  let md_str ←
    match synapse.equations with
    | some equations => do
      let eqs ← expand_equations e equations
      let s := md_str ++ tab ++ bold "Dynamics:" ++ endll ++ tab ++ eqs
      match synapse.user_method with
      | some um =>
        pure (s ++ tab ++ um ++ " method is used for integration" ++ endll)
      | none => pure s
    | none => pure md_str
  let md_str ←
    match synapse.pathways with
    | some pathways => do
      let ps ← expand_pathways e pathways
      pure (md_str ++ tab ++ bold "Pathways:" ++ endll ++ ps)
    | none => pure md_str
  let md_str :=
    match synapse.summed_variables with
    | some svs =>
      md_str ++ tab ++ bold "Summed variables: " ++ endll ++
        expand_summed_variables e svs
    | none => md_str
  let md_str :=
    match synapse.identifiers with
    | some idents =>
      md_str ++ tab ++ bold "Constants:" ++ endll ++ expand_identifiers e idents
    | none => md_str
  pure md_str

/-- Standard dictionary of a `PoissonInput`. -/
structure PoissonInput where
  N : Nat
  target_var : String
  rate : String
  weight : String
  identifiers : Option (List (String × IdentValue))

/-- `Std_mdexpander.expand_PoissonInput`. -/
def expand_PoissonInput (e : Renderer) (poinp : PoissonInput) :
    Except PyErr String := do
  let md_str := tab ++ "PoissonInput with size " ++ bold (toString poinp.N) ++
    " gives input to variable " ++ render_expression e poinp.target_var false ++
    " with rate " ++ render_expression e poinp.rate false ++
    " and weight of " ++ render_expression e poinp.weight false ++ endll
  let md_str :=
    match poinp.identifiers with
    | some idents =>
      md_str ++ tab ++ bold "Constants:" ++ endll ++ expand_identifiers e idents
    | none => md_str
  pure md_str

/-- An initializer dictionary.  `value` is handed to `render_expression`
(so its `str`/`Quantity` form); `index` is the dynamic value described by
`IndexVal`. -/
structure Initializer where
  «variable» : String
  source : String
  value : String
  index : IndexVal
  identifiers : Option (List (String × IdentValue))

/-- `Std_mdexpander.expand_initializer`.  The branch structure follows the
source: a string index that is not `'True'`/`'False'` is a condition; a
`bool` index (or the strings `'True'`/`'False'`) picks all or no members by
Python truthiness of the index `or` equality with `'True'`; any other index
is printed after `' to member'` — the `hasattr` probe there asks for the
misspelled attribute `'__iter___'`, so `str(index)` is used even for
lists. -/
def expand_initializer (e : Renderer) (initializer : Initializer) :
    Except PyErr String := do
  let idx := initializer.index
  let init_str := "Variable " ++
    render_expression e initializer.«variable» false ++ " of " ++
    initializer.source ++ " initialized with " ++
    render_expression e initializer.value false
  let init_str ←
    if idx.isStr ∧ idx ≠ .str "True" ∧ idx ≠ .str "False" then
      pure (init_str ++ " on condition " ++ idx.strVal)
    else if idx.isBool ∨ idx = .str "True" ∨ idx = .str "False" then
      pure (init_str ++
        (if idx.pyTruthy ∨ idx = .str "True" then " to all members"
         else " to no member"))
    else do
      let pl ← check_plural idx.iterability none true
      pure (init_str ++ " to member" ++ pl ++ " " ++
        (if ¬ idx.hasattr "__iter___" then idx.pyStr
         else joinSep "," (idx.elems.map toString)))
  let init_str ←
    match initializer.identifiers with
    | some idents => do
      let pl ← check_plural (.iter idents.length) none true
      pure (init_str ++ ". Identifier" ++ pl ++ " associated: " ++
        expand_identifiers e idents)
    | none => pure init_str
  pure (init_str ++ endll)

/-- A connector dictionary.  `i`, `j` and `condition` are the optional
keys checked with `in`; `probability` and `n_connections` are Python
numbers (modelled as rationals). -/
structure Connector where
  source : String
  target : String
  i : Option IndexVal
  j : Option IndexVal
  condition : Option String
  probability : ℚ
  n_connections : ℚ
  identifiers : Option (List (String × IdentValue))

/-- `Std_mdexpander.expand_connector`. -/
def expand_connector (e : Renderer) (connector : Connector) :
    Except PyErr String := do
  let con_str := "Connection from " ++ connector.source ++ " to " ++
    connector.target
  let con_str ←
    match connector.i with
    | some iv => do
      let pli ← check_plural iv.iterability (some "index") true
      let con_str := con_str ++ ". From source group " ++ pli ++ ": "
      let con_str :=
        if ¬ iv.isStr then
          con_str ++
            (if iv.hasattr "__iter__" then joinSep ", " (iv.elems.map toString)
             else iv.pyStr)
        else con_str ++ " with generator syntax " ++ iv.strVal
      match connector.j with
      | some jv => do
        let plj ← check_plural jv.iterability (some "index") true
        let con_str := con_str ++ " to target group " ++ plj ++ ": "
        pure
          (if ¬ jv.isStr then
            con_str ++
              (if jv.hasattr "__iter__" then joinSep ", " (jv.elems.map toString)
               else jv.pyStr)
          else con_str ++ " with generator syntax " ++ jv.strVal)
      | none => pure (con_str ++ " to all target group members")
    | none =>
      match connector.j with
      | some jv => do
        let con_str := con_str ++ ". Connection for all members in source group"
        if ¬ jv.isStr then do
          let plj ← check_plural jv.iterability (some "index") true
          pure (con_str ++ " to target group " ++ plj ++ ": " ++
            (if jv.hasattr "__iter__" then joinSep ", " (jv.elems.map toString)
             else jv.pyStr))
        else
          pure (con_str ++ " to target group with generator syntax " ++
            jv.strVal)
      | none =>
        match connector.condition with
        | some condition =>
          pure (con_str ++ " with condition " ++
            render_expression e condition false)
        | none => pure con_str
  let con_str :=
    if connector.probability ≠ 1 then
      con_str ++ ", with probability " ++
        render_expression e (toString connector.probability) false
    else con_str
  let con_str :=
    if connector.n_connections ≠ 1 then
      con_str ++ ", with number of connections " ++
        render_expression e (toString connector.n_connections) false
    else con_str
  let con_str :=
    match connector.identifiers with
    | some idents =>
      con_str ++ ". Constants associated: " ++ expand_identifiers e idents
    | none => con_str
  pure (con_str ++ endll)

/-- One entry of `run_dict['initializers_connectors']`: an initializer
dictionary (whose `type` entry is the interned literal `'initializer'`) or a
connector dictionary (whose `type` entry is `'connect'`). -/
inductive InitConn where
  | initializer (i : Initializer)
  | connector (c : Connector)

/-- The `type` entry of the entry's dictionary. -/
def InitConn.type : InitConn → String
  | .initializer _ => "initializer"
  | .connector _ => "connect"

/-- The initializer payload, when the entry's `type` is `'initializer'`. -/
def InitConn.getInitializer : InitConn → Option Initializer
  | .initializer i => some i
  | .connector _ => none

/-- The connector payload, when the entry's `type` is not `'initializer'`. -/
def InitConn.getConnector : InitConn → Option Connector
  | .initializer _ => none
  | .connector c => some c

/-- The loop of `create_md_string` that distributes the members of
`initializers_connectors` into the `initializer` and `connector` lists by
`init_cont['type'] is 'initializer'` (CPython `is` on interned literals
modelled as equality, which the constructor dispatch realizes). -/
def split_initializers : List InitConn → List Initializer × List Connector
  | [] => ([], [])
  | ic :: rest =>
    let (ins, cons) := split_initializers rest
    match ic with
    | .initializer i => (i :: ins, cons)
    | .connector c => (ins, c :: cons)

/-- One entry of `run_dict['components']`: the dictionary key together with
its list of member dictionaries, typed by the schema; `other` covers any
key that is not in `func_map` (its members are never inspected). -/
inductive CompItem where
  | neurongroup (gs : List NeuronGroup)
  | poissongroup (gs : List PoissonGroup)
  | spikegeneratorgroup (gs : List SpikeGeneratorGroup)
  | statemonitor (ms : List StateMonitor)
  | spikemonitor (ms : List EventMonitor)
  | eventmonitor (ms : List EventMonitor)
  | populationratemonitor (ms : List PopulationRateMonitor)
  | synapses (ss : List Synapses)
  | poissoninput (ps : List PoissonInput)
  | other (key : String)

/-- The dictionary key of the component entry. -/
def CompItem.key : CompItem → String
  | .neurongroup _ => "neurongroup"
  | .poissongroup _ => "poissongroup"
  | .spikegeneratorgroup _ => "spikegeneratorgroup"
  | .statemonitor _ => "statemonitor"
  | .spikemonitor _ => "spikemonitor"
  | .eventmonitor _ => "eventmonitor"
  | .populationratemonitor _ => "populationratemonitor"
  | .synapses _ => "synapses"
  | .poissoninput _ => "poissoninput"
  | .other key => key

/-- The member loop `for obj_mem in obj_list: run_string += '- ' + f(obj_mem)`
of `create_md_string`. -/
def members_loop (f : α → Except PyErr String) : List α → Except PyErr String
  | [] => pure ""
  | m :: rest => do
    let s ← f m
    let srest ← members_loop f rest
    pure ("- " ++ s ++ srest)

/-- The body of the `if obj_key in func_map` branch of `create_md_string`:
the bold group heading (`hb` when `brian_verbose`, else `h`, followed by the
plural marker and `' defined:'`) and the member loop. -/
def comp_block (brian_verbose : Bool) (hb h : String)
    (f : α → Except PyErr String) (obj_list : List α) : Except PyErr String := do
  let obj_h := if brian_verbose then hb else h
  let pl ← check_plural (.iter obj_list.length) none true
  let mems ← members_loop f obj_list
  pure (bold (obj_h ++ pl ++ " defined:") ++ endl ++ mems ++ endl)

/-- One iteration of the components loop of `create_md_string`: dispatch
through `func_map` when the key is known (with the `hb`/`h` heading words of
the table), and the unconditional trailing `endl`. -/
def component_string (e : Renderer) (brian_verbose : Bool) :
    CompItem → Except PyErr String
  | .neurongroup gs =>
    comp_block brian_verbose "NeuronGroup" "Neuron group"
      (expand_NeuronGroup e) gs
  | .poissongroup gs =>
    comp_block brian_verbose "PoissonGroup" "Poisson spike source"
      (expand_PoissonGroup e) gs
  | .spikegeneratorgroup gs =>
    comp_block brian_verbose "SpikeGeneratorGroup" "Spike generating source"
      (expand_SpikeGeneratorGroup e) gs
  | .statemonitor ms =>
    comp_block brian_verbose "StateMonitor" "Activity recorder"
      (expand_StateMonitor e) ms
  | .spikemonitor ms =>
    comp_block brian_verbose "SpikeMonitor" "Spiking activity recorder"
      (expand_SpikeMonitor e) ms
  | .eventmonitor ms =>
    comp_block brian_verbose "EventMonitor" "Event activity recorder"
      (expand_EventMonitor e) ms
  | .populationratemonitor ms =>
    comp_block brian_verbose "PopulationRateMonitor" "Population rate recorder"
      (expand_PopulationRateMonitor e) ms
  | .synapses ss =>
    comp_block brian_verbose "Synapse" "Synapse" (expand_Synapses e) ss
  | .poissoninput ps =>
    comp_block brian_verbose "PoissonInput" "Poisson input"
      (expand_PoissonInput e) ps
  | .other _ => pure endl

/-- The components loop of `create_md_string` over
`run_dict['components'].items()`. -/
def components_loop (e : Renderer) (brian_verbose : Bool) :
    List CompItem → Except PyErr String
  | [] => pure ""
  | item :: rest => do
    let s ← component_string e brian_verbose item
    let srest ← components_loop e brian_verbose rest
    pure (s ++ srest)

/-- One run's standard dictionary: the `str` of its `duration`, its
`components` dictionary, and the optional `initializers_connectors` and
`inactive` entries. -/
structure RunDict where
  duration : String
  components : List CompItem
  initializers_connectors : Option (List InitConn)
  inactive : Option (List String)

/-- The loop `for initit in initializer: run_string += '- ' + ...`. -/
def init_members_loop (e : Renderer) : List Initializer → Except PyErr String
  | [] => pure ""
  | i :: rest => do
    let s ← expand_initializer e i
    let srest ← init_members_loop e rest
    pure ("- " ++ s ++ srest)

/-- The loop `for connect in connector: run_string += '- ' + ...`. -/
def conn_members_loop (e : Renderer) : List Connector → Except PyErr String
  | [] => pure ""
  | c :: rest => do
    let s ← expand_connector e c
    let srest ← conn_members_loop e rest
    pure ("- " ++ s ++ srest)

/-- The initializer block of a run (the body of `if initializer:`): the
heading (Brian-verbose or plain wording, the latter with the 41 spaces of
the backslash-continued literal) and the `'- '`-prefixed expansions. -/
def init_part (e : Renderer) (brian_verbose : Bool)
    (initializer : List Initializer) : Except PyErr String := do
  let head ←
    if brian_verbose then do
      let pl ← check_plural (.iter initializer.length) none true
      pure (bold ("Initializer" ++ pl ++ " defined:") ++ endl)
    else
      pure (bold ("Initializing values at" ++ spaces 41 ++ "starting:") ++
        endl)
  let body ← init_members_loop e initializer
  pure (head ++ body)

/-- The synaptic-connection block of a run (the body of `if connector:`). -/
def conn_part (e : Renderer) (connector : List Connector) :
    Except PyErr String := do
  let pl ← check_plural (.iter connector.length) none true
  let body ← conn_members_loop e connector
  pure (endl ++ bold ("Synaptic Connection" ++ pl ++ " defined:") ++ endl ++
    body)

/-- The inactive-members block of a run (the body of
`if 'inactive' in run_dict:`). -/
def inact_part (inactive : List String) : Except PyErr String := do
  let pl ← check_plural (.iter inactive.length) none true
  pure (endl ++ bold ("Inactive member" ++ pl ++ ":") ++ endl ++
    joinSep ", " inactive)

/-- The body of the run loop of `Std_mdexpander.create_md_string` for run
index `run_indx` (`multi` is `len(net_dict) > 1`): run header, duration,
components, initializers, connectors, and inactive members. -/
def run_section (e : Renderer) (brian_verbose multi : Bool) (run_indx : Nat)
    (run_dict : RunDict) : Except PyErr String := do
  let run_string :=
    if multi then header ("Run " ++ toString (run_indx + 1) ++ " details") 3 ++
      endl
    else endl
  let run_string := run_string ++ "Duration of simulation is " ++
    bold run_dict.duration ++ endll
  let comps ← components_loop e brian_verbose run_dict.components
  let run_string := run_string ++ comps
  let (initializer, connector) :=
    split_initializers (run_dict.initializers_connectors.getD [])
  let run_string ←
    if initializer.isEmpty then pure run_string
    else do
      let ip ← init_part e brian_verbose initializer
      pure (run_string ++ ip)
  let run_string ←
    if connector.isEmpty then pure run_string
    else do
      let cp ← conn_part e connector
      pure (run_string ++ cp)
  let run_string ←
    match run_dict.inactive with
    | some inactive => do
      let np ← inact_part inactive
      pure (run_string ++ np)
    | none => pure run_string
  pure run_string

/-- The run loop of `create_md_string`
(`for run_indx in range(len(net_dict))`). -/
def runs_loop (e : Renderer) (brian_verbose multi : Bool) :
    Nat → List RunDict → Except PyErr String
  | _, [] => pure ""
  | idx, rd :: rest => do
    let s ← run_section e brian_verbose multi idx rd
    let srest ← runs_loop e brian_verbose multi (idx + 1) rest
    pure (s ++ srest)

/-- `Std_mdexpander.create_md_string`: header, the network sentence (with
the 28 spaces the backslash-continued literal embeds), the horizontal rule,
and the per-run sections; stores `github_md` on the object at the start and
`md_text` at the end, returning `md_text` alongside the updated object. -/
def create_md_string (e : MdExpander) (net_dict : List RunDict)
    (brian_verbose github_md : Bool) :
    Except PyErr (MdExpander × String) := do
  let overall_string := header "Network details" 1 ++ endl
  let n_runs := if 1 < net_dict.length then "" else "s"
  let r : Renderer := { latexR := e.latexR, github_md := github_md }
  let overall_string := overall_string ++
    ("The Network consist" ++ n_runs ++ " of " ++
      bold (toString net_dict.length) ++ " " ++ spaces 27 ++ "simulation run")
  let pl ← check_plural (.iter net_dict.length) none true
  let overall_string := overall_string ++ pl ++ endl ++ horizontal_rule ++ endl
  let body ← runs_loop r brian_verbose (1 < net_dict.length) 0 net_dict
  let overall_string := overall_string ++ body
  pure ({ latexR := e.latexR, github_md := github_md,
          md_text := overall_string }, overall_string)

/-! Shared lemmas about the embedding. -/

theorem ok_bind {α β : Type} (a : α) (f : α → Except PyErr β) :
    (Except.ok a >>= f) = f a := rfl

theorem error_bind {α β : Type} (err : PyErr) (f : α → Except PyErr β) :
    ((Except.error err : Except PyErr α) >>= f) = Except.error err := rfl

theorem pure_eq_ok {α : Type} (a : α) : (pure a : Except PyErr α) = Except.ok a :=
  rfl

theorem check_plural_iter_none (n : Nat) (ac : Bool) :
    check_plural (.iter n) none ac = .ok (if 1 < n then "s" else "") := by
  by_cases h : 1 < n <;> simp [check_plural, h]

theorem check_plural_noniter (sw : Option String) :
    check_plural .noniter sw true = .ok "" := rfl

theorem check_plural_iter_index (n : Nat) (ac : Bool) :
    check_plural (.iter n) (some "index") ac =
      .ok (if 1 < n then "indices" else "") := by
  by_cases h : 1 < n <;> simp [check_plural, h]

theorem data_append (a b : String) : (a ++ b).data = a.data ++ b.data := rfl

theorem mk_data (s : String) : String.mk s.data = s := rfl

/-- C3: `create_md_string` is a pure templating function of `net_dict`,
`brian_verbose` and `github_md`: the result (in particular the returned
markdown string) does not depend on the `github_md` and `md_text` values
left on the object by earlier calls. -/
theorem create_md_string_state_independent
    (L : String → Bool → String) (g g' : Bool) (m m' : String)
    (net_dict : List RunDict) (brian_verbose github_md : Bool) :
    create_md_string ⟨L, g, m⟩ net_dict brian_verbose github_md =
      create_md_string ⟨L, g', m'⟩ net_dict brian_verbose github_md ∧
    (create_md_string ⟨L, g, m⟩ net_dict brian_verbose github_md).map
        Prod.snd =
      (create_md_string ⟨L, g', m'⟩ net_dict brian_verbose github_md).map
        Prod.snd :=
  ⟨rfl, rfl⟩

/-- C4: value of `check_plural` in every non-raising case: `'s'` (or the
irregular plural of `'index'`/`'property'`) for an iterable with more than
one element, and the empty string for an iterable with at most one element
or a non-iterable under `allow_constants`. -/
theorem check_plural_values
    (it : Iterability) (sw : Option String) (ac : Bool)
    (hconst : it = Iterability.noniter → ac = true)
    (hw : ∀ w n, sw = some w → it = Iterability.iter n → 1 < n →
      w = "index" ∨ w = "property") :
    check_plural it sw ac =
      .ok (match it, sw with
        | .iter n, none => if 1 < n then "s" else ""
        | .iter n, some w =>
          if 1 < n then (if w = "index" then "indices" else "properties")
          else ""
        | .noniter, _ => "") := by
  cases it with
  | noniter =>
    have := hconst rfl
    subst this
    cases sw <;> simp [check_plural]
  | iter n =>
    by_cases h1 : 1 < n
    · cases sw with
      | none => simp [check_plural, h1]
      | some w =>
        rcases hw w n rfl rfl h1 with hi | hp
        · subst hi; simp [check_plural, h1]
        · subst hp; simp [check_plural, h1]
    · cases sw <;> simp [check_plural, h1]

theorem check_plural_values_witness :
    check_plural (.iter 3) (some "index") true = .ok "indices" := by
  have h := check_plural_values (Iterability.iter 3) (some "index") true
    (fun hc => by cases hc)
    (fun w n hw _ _ => by cases hw; exact Or.inl rfl)
  exact h.trans rfl

/-- C5: `check_plural` raises in exactly two situations: `IndexError` for a
non-iterable with `allow_constants` false, and a generic `Exception` for an
iterable of at least two elements with a `singular_word` that is neither
`'index'` nor `'property'`; it returns normally in every other case. -/
theorem check_plural_errors (it : Iterability) (sw : Option String) (ac : Bool) :
    (check_plural it sw ac = .error .indexError ↔
      it = Iterability.noniter ∧ ac = false) ∧
    (check_plural it sw ac = .error .exception ↔
      ∃ n w, it = Iterability.iter n ∧ 2 ≤ n ∧ sw = some w ∧
        w ≠ "index" ∧ w ≠ "property") ∧
    ((∃ err, check_plural it sw ac = .error err) ↔
      ((it = Iterability.noniter ∧ ac = false) ∨
        ∃ n w, it = Iterability.iter n ∧ 2 ≤ n ∧ sw = some w ∧
          w ≠ "index" ∧ w ≠ "property")) := by
  cases it with
  | noniter =>
    cases ac <;> simp [check_plural]
  | iter n =>
    by_cases h1 : 1 < n
    · cases sw with
      | none => simp [check_plural, h1]
      | some w =>
        by_cases hi : w = "index"
        · subst hi; simp [check_plural, h1]
        · by_cases hp : w = "property"
          · subst hp; simp [check_plural, h1, hi]
          · simp [check_plural, h1, hi, hp]
            omega
    · cases sw with
      | none => simp [check_plural, h1]
      | some w =>
        simp [check_plural, h1]
        omega

theorem str_append_assoc (a b c : String) : a ++ b ++ c = a ++ (b ++ c) := by
  show String.mk _ = String.mk _
  simp [List.append_assoc]

theorem str_append_empty (s : String) : s ++ "" = s := by
  show String.mk _ = String.mk _
  simp

theorem str_empty_append (s : String) : "" ++ s = s := rfl

/-- C8: `expand_SpikeMonitor` and `expand_EventMonitor` are extensionally
equal: the former returns exactly the latter's result on every monitor
dictionary. -/
theorem expand_SpikeMonitor_eq_expand_EventMonitor
    (e : Renderer) (d : EventMonitor) :
    expand_SpikeMonitor e d = expand_EventMonitor e d := rfl

/-- C9: for an initializer whose `index` is neither a string nor a boolean
(a plain number or a list), `expand_initializer` appends `' to member'`, the
plural marker and the single `str(index)` of the whole index value; and the
branch joining individual elements with `','` is dead, because the attribute
probed is the misspelled `'__iter___'`, which no value provides. -/
theorem expand_initializer_plain_index
    (e : Renderer) (v src val : String)
    (idents : Option (List (String × IdentValue))) :
    (∀ n : Int,
      expand_initializer e ⟨v, src, val, IndexVal.int n, idents⟩ =
        .ok ("Variable " ++ render_expression e v false ++ " of " ++ src ++
          " initialized with " ++ render_expression e val false ++
          " to member" ++ " " ++ IndexVal.pyStr (IndexVal.int n) ++
          (match idents with
           | some ids => ". Identifier" ++
               (if 1 < ids.length then "s" else "") ++ " associated: " ++
               expand_identifiers e ids
           | none => "") ++ endll)) ∧
    (∀ xs : List Int,
      expand_initializer e ⟨v, src, val, IndexVal.list xs, idents⟩ =
        .ok ("Variable " ++ render_expression e v false ++ " of " ++ src ++
          " initialized with " ++ render_expression e val false ++
          " to member" ++ (if 1 < xs.length then "s" else "") ++ " " ++
          IndexVal.pyStr (IndexVal.list xs) ++
          (match idents with
           | some ids => ". Identifier" ++
               (if 1 < ids.length then "s" else "") ++ " associated: " ++
               expand_identifiers e ids
           | none => "") ++ endll)) ∧
    (∀ idx : IndexVal, idx.hasattr "__iter___" = false) := by
  refine ⟨fun n => ?_, fun xs => ?_, fun idx => ?_⟩
  · cases idents <;>
      simp [expand_initializer, IndexVal.isStr, IndexVal.isBool,
        IndexVal.iterability, IndexVal.hasattr, IndexVal.attrs,
        IndexVal.pyStr, check_plural_noniter, check_plural_iter_none,
        ok_bind, pure_eq_ok, str_append_assoc, str_append_empty,
        str_empty_append] <;> try rfl
  · cases idents <;>
      simp [expand_initializer, IndexVal.isStr, IndexVal.isBool,
        IndexVal.iterability, IndexVal.hasattr, IndexVal.attrs,
        IndexVal.pyStr, check_plural_noniter, check_plural_iter_none,
        ok_bind, pure_eq_ok, str_append_assoc, str_append_empty,
        str_empty_append] <;> try rfl
  · cases idx <;> simp [IndexVal.hasattr, IndexVal.attrs]

/-- C10: in `expand_StateMonitor` and `expand_EventMonitor`, a boolean
`record` of `False` yields no member clause at all, `' for all members'`
appears exactly for the boolean `True`, and `' for no member'` exactly for a
non-boolean array of size zero (a nonempty array instead yields the
`', for member...'` listing). -/
theorem monitors_record_member_clause
    (e : Renderer) (vars : List String) (src ev : String) :
    (expand_StateMonitor e ⟨vars, src, RecordVal.bool false⟩ =
      .ok (tab ++ "Monitors variable" ++
        (if 1 < vars.length then "s" else "") ++ ": " ++
        joinSep "," (vars.map (fun var => render_expression e var false)) ++
        " of " ++ src)) ∧
    (expand_StateMonitor e ⟨vars, src, RecordVal.bool true⟩ =
      .ok (tab ++ "Monitors variable" ++
        (if 1 < vars.length then "s" else "") ++ ": " ++
        joinSep "," (vars.map (fun var => render_expression e var false)) ++
        " of " ++ src ++ " for all members")) ∧
    (expand_StateMonitor e ⟨vars, src, RecordVal.arr []⟩ =
      .ok (tab ++ "Monitors variable" ++
        (if 1 < vars.length then "s" else "") ++ ": " ++
        joinSep "," (vars.map (fun var => render_expression e var false)) ++
        " of " ++ src ++ " for no member")) ∧
    (∀ (x : Int) (xs : List Int),
      expand_StateMonitor e ⟨vars, src, RecordVal.arr (x :: xs)⟩ =
        .ok (tab ++ "Monitors variable" ++
          (if 1 < vars.length then "s" else "") ++ ": " ++
          joinSep "," (vars.map (fun var => render_expression e var false)) ++
          " of " ++ src ++ ", for member" ++
          (if 1 < (x :: xs).length then "s" else "") ++ ": " ++
          joinSep "," ((x :: xs).map toString) ++ "." ++ endll)) ∧
    (expand_EventMonitor e ⟨vars, src, RecordVal.bool false, ev⟩ =
      .ok (tab ++ "Monitors variable" ++
        (if 1 < vars.length then "s" else "") ++ ": " ++
        joinSep "," (vars.map (fun var => render_expression e var false)) ++
        " of " ++ src ++ " when event " ++ bold ev ++ " is triggered." ++
        endll)) ∧
    (expand_EventMonitor e ⟨vars, src, RecordVal.bool true, ev⟩ =
      .ok (tab ++ "Monitors variable" ++
        (if 1 < vars.length then "s" else "") ++ ": " ++
        joinSep "," (vars.map (fun var => render_expression e var false)) ++
        " of " ++ src ++ " for all members" ++ " when event " ++ bold ev ++
        " is triggered." ++ endll)) ∧
    (expand_EventMonitor e ⟨vars, src, RecordVal.arr [], ev⟩ =
      .ok (tab ++ "Monitors variable" ++
        (if 1 < vars.length then "s" else "") ++ ": " ++
        joinSep "," (vars.map (fun var => render_expression e var false)) ++
        " of " ++ src ++ " for no member" ++ " when event " ++ bold ev ++
        " is triggered." ++ endll)) ∧
    (∀ (x : Int) (xs : List Int),
      expand_EventMonitor e ⟨vars, src, RecordVal.arr (x :: xs), ev⟩ =
        .ok (tab ++ "Monitors variable" ++
          (if 1 < vars.length then "s" else "") ++ ": " ++
          joinSep "," (vars.map (fun var => render_expression e var false)) ++
          " of " ++ src ++ ", for member" ++
          (if 1 < (x :: xs).length then "s" else "") ++ ": " ++
          joinSep "," ((x :: xs).map toString) ++ " when event " ++ bold ev ++
          " is triggered." ++ endll)) := by
  refine ⟨?_, ?_, ?_, fun x xs => ?_, ?_, ?_, ?_, fun x xs => ?_⟩ <;>
    simp [expand_StateMonitor, expand_EventMonitor, check_plural_iter_none,
      check_plural_noniter, ok_bind, pure_eq_ok, str_append_assoc,
      str_append_empty, str_empty_append] <;> try rfl

theorem pyDropLast_sep (a : String) : pyDropLast 2 (a ++ ", ") = a := by
  show String.mk _ = a
  rw [data_append]
  have h : (a.data ++ (", ").data).length - 2 = a.data.length := by
    rw [List.length_append]
    simp
  rw [h, List.take_left]

theorem strconcat_sep_len {α : Type} (F : α → String) (y : α) (l : List α) :
    2 ≤ (strconcat ((y :: l).map (fun x => F x ++ ", "))).data.length := by
  simp only [List.map_cons, strconcat, data_append, List.length_append,
    List.length_cons, List.length_nil]
  omega

theorem pyDropLast_append (a b : String) (hb : 2 ≤ b.data.length) :
    pyDropLast 2 (a ++ b) = a ++ pyDropLast 2 b := by
  show String.mk _ = _
  rw [data_append]
  rw [show (a.data ++ b.data).length - 2 = a.data.length + (b.data.length - 2)
    by rw [List.length_append]; omega]
  rw [List.take_append]
  rfl

theorem pyDropLast_strconcat_sep {α : Type} (F : α → String) :
    ∀ l : List α,
      pyDropLast 2 (strconcat (l.map (fun x => F x ++ ", "))) =
        joinSep ", " (l.map F)
  | [] => rfl
  | [x] => by
    simp [strconcat, joinSep, str_append_empty, pyDropLast_sep]
  | x :: y :: rest => by
    have ih := pyDropLast_strconcat_sep F (y :: rest)
    have hlen := strconcat_sep_len F y rest
    calc pyDropLast 2 (strconcat ((x :: y :: rest).map (fun s => F s ++ ", ")))
        = pyDropLast 2 ((F x ++ ", ") ++
            strconcat ((y :: rest).map (fun s => F s ++ ", "))) := rfl
      _ = (F x ++ ", ") ++
            pyDropLast 2 (strconcat ((y :: rest).map (fun s => F s ++ ", "))) :=
          pyDropLast_append _ _ hlen
      _ = (F x ++ ", ") ++ joinSep ", " ((y :: rest).map F) := by rw [ih]
      _ = joinSep ", " ((x :: y :: rest).map F) := by
          simp [joinSep, str_append_assoc]

theorem pms_loop_ok (e : Renderer) (differential : Bool) (equals : String)
    (separate : Bool) :
    ∀ l : List String,
      (separate = true → ∀ st ∈ l, (splitAssign st).length = 2 ∧
        (strContains st "+=" || strContains st "=" ||
          strContains st "-=") = true) →
      pms_loop e differential separate equals l =
        .ok (strconcat (l.map (fun st =>
          (if separate then
            match splitAssign st with
            | [lhs, rhs] =>
              render_expression e lhs false ++
                (if strContains st "+=" then "+="
                 else if strContains st "-=" then "-="
                 else equals) ++ render_expression e rhs false
            | _ => ""
          else render_expression e st differential) ++ ", ")))
  | [], _ => rfl
  | st :: rest, h => by
    have ih := pms_loop_ok e differential equals separate rest
      (fun hs st' hst' => h hs st' (List.mem_cons_of_mem _ hst'))
    cases separate with
    | false =>
      simp [pms_loop, ih, ok_bind, pure_eq_ok, strconcat, str_append_assoc]
    | true =>
      obtain ⟨hlen, hguard⟩ := h rfl st (List.mem_cons_self st rest)
      obtain ⟨lhs, rhs, hsa⟩ := List.length_eq_two.mp hlen
      by_cases h1 : strContains st "+=" = true
      · simp [pms_loop, hsa, hguard, ih, h1, ok_bind, pure_eq_ok, strconcat,
          str_append_assoc]
      · by_cases h2 : strContains st "-=" = true
        · simp [pms_loop, hsa, hguard, ih, h1, h2, ok_bind, pure_eq_ok,
            strconcat, str_append_assoc]
        · have heq : strContains st "=" = true := by
            simpa [h1, h2] using hguard
          simp [pms_loop, hsa, heq, ih, h1, h2, ok_bind, pure_eq_ok,
            strconcat, str_append_assoc]

/-- C6: `prepare_math_statements` splits on `;` and newlines and processes
the pieces in order: without `separate` each piece is rendered with the
`differential` flag; with `separate` a piece containing an assignment
operator whose operator-split has exactly a left and a right part becomes
rendered-lhs, then `'+='` if the piece contains `'+='`, `'-='` if it
contains `'-='`, else the `equals` symbol, then rendered-rhs; every piece
is followed by `', '` and the final two characters are dropped, so when
every piece is processed the results are joined by `', '` with no trailing
separator. -/
theorem prepare_math_statements_spec
    (e : Renderer) (statements : String) (differential : Bool)
    (equals : String) (separate : Bool)
    (hsep : separate = true → ∀ st ∈ pySplit statements,
      (splitAssign st).length = 2 ∧
      (strContains st "+=" || strContains st "=" ||
        strContains st "-=") = true) :
    prepare_math_statements e statements differential separate equals =
      .ok (joinSep ", " ((pySplit statements).map (fun st =>
        if separate then
          match splitAssign st with
          | [lhs, rhs] =>
            render_expression e lhs false ++
              (if strContains st "+=" then "+="
               else if strContains st "-=" then "-="
               else equals) ++ render_expression e rhs false
          | _ => ""
        else render_expression e st differential))) := by
  unfold prepare_math_statements
  rw [pms_loop_ok e differential equals separate (pySplit statements) hsep,
    ok_bind, pure_eq_ok, pyDropLast_strconcat_sep]

theorem prepare_math_statements_spec_witness :
    prepare_math_statements ⟨fun _ _ => "##", false⟩ "v=3;w+=2" false true
      "&#8592;" = .ok "&#8592;, +=" := by
  have h := prepare_math_statements_spec ⟨fun _ _ => "##", false⟩ "v=3;w+=2"
    false "&#8592;" true (fun _ st hst => by
      have hsplit : pySplit "v=3;w+=2" = ["v=3", "w+=2"] := rfl
      rw [hsplit] at hst
      simp only [List.mem_cons, List.not_mem_nil, or_false] at hst
      rcases hst with h1 | h2
      · subst h1; exact ⟨rfl, rfl⟩
      · subst h2; exact ⟨rfl, rfl⟩)
  exact h.trans rfl

theorem members_loop_ok_decomp {α : Type} (f : α → Except PyErr String) :
    ∀ (l : List α) (s : String), members_loop f l = .ok s →
      ∃ ts, List.Forall₂ (fun a t => f a = .ok t) l ts ∧
        s = strconcat (ts.map (fun t => "- " ++ t))
  | [], s, h => by
    simp only [members_loop, pure_eq_ok, Except.ok.injEq] at h
    exact ⟨[], List.Forall₂.nil, by simp [← h, strconcat]⟩
  | a :: rest, s, h => by
    simp only [members_loop] at h
    cases hf : f a with
    | error err => rw [hf, error_bind] at h; exact Except.noConfusion h
    | ok t =>
      rw [hf, ok_bind] at h
      cases hr : members_loop f rest with
      | error err => rw [hr, error_bind] at h; exact Except.noConfusion h
      | ok b =>
        rw [hr, ok_bind, pure_eq_ok] at h
        obtain ⟨ts, hts, hb⟩ := members_loop_ok_decomp f rest b hr
        refine ⟨t :: ts, List.Forall₂.cons hf hts, ?_⟩
        simp only [Except.ok.injEq] at h
        subst hb
        simp [← h, strconcat, str_append_assoc]

theorem init_members_loop_eq (e : Renderer) :
    ∀ l : List Initializer,
      init_members_loop e l = members_loop (expand_initializer e) l
  | [] => rfl
  | i :: rest => by
    simp only [init_members_loop, members_loop, init_members_loop_eq e rest]

theorem conn_members_loop_eq (e : Renderer) :
    ∀ l : List Connector,
      conn_members_loop e l = members_loop (expand_connector e) l
  | [] => rfl
  | c :: rest => by
    simp only [conn_members_loop, members_loop, conn_members_loop_eq e rest]

theorem comp_block_ok_decomp {α : Type} (bv : Bool) (hb hw : String)
    (f : α → Except PyErr String) (objs : List α) (s : String)
    (h : comp_block bv hb hw f objs = .ok s) :
    ∃ ts, List.Forall₂ (fun a t => f a = .ok t) objs ts ∧
      s = bold ((if bv then hb else hw) ++
          (if 1 < objs.length then "s" else "") ++ " defined:") ++ endl ++
        strconcat (ts.map (fun t => "- " ++ t)) ++ endl := by
  unfold comp_block at h
  rw [check_plural_iter_none, ok_bind] at h
  cases hm : members_loop f objs with
  | error err => rw [hm, error_bind] at h; exact Except.noConfusion h
  | ok b =>
    rw [hm, ok_bind, pure_eq_ok] at h
    obtain ⟨ts, hts, hb2⟩ := members_loop_ok_decomp f objs b hm
    refine ⟨ts, hts, ?_⟩
    simp only [Except.ok.injEq] at h
    subst hb2
    simp [← h]

theorem components_loop_ok_decomp (e : Renderer) (bv : Bool) :
    ∀ (l : List CompItem) (s : String), components_loop e bv l = .ok s →
      ∃ ts, List.Forall₂
          (fun it t => component_string e bv it = .ok t) l ts ∧
        s = strconcat ts
  | [], s, h => by
    simp only [components_loop, pure_eq_ok, Except.ok.injEq] at h
    exact ⟨[], List.Forall₂.nil, h.symm⟩
  | item :: rest, s, h => by
    simp only [components_loop] at h
    cases hf : component_string e bv item with
    | error err => rw [hf, error_bind] at h; exact Except.noConfusion h
    | ok t =>
      rw [hf, ok_bind] at h
      cases hr : components_loop e bv rest with
      | error err => rw [hr, error_bind] at h; exact Except.noConfusion h
      | ok b =>
        rw [hr, ok_bind, pure_eq_ok] at h
        obtain ⟨ts, hts, hb⟩ := components_loop_ok_decomp e bv rest b hr
        refine ⟨t :: ts, List.Forall₂.cons hf hts, ?_⟩
        simp only [Except.ok.injEq] at h
        subst hb
        simp [← h, strconcat]

theorem runs_loop_ok_decomp (e : Renderer) (bv multi : Bool) :
    ∀ (idx : Nat) (l : List RunDict) (s : String),
      runs_loop e bv multi idx l = .ok s →
      ∃ ts, List.Forall₂ (fun (p : Nat × RunDict) t =>
          run_section e bv multi p.1 p.2 = .ok t) (List.enumFrom idx l) ts ∧
        s = strconcat ts
  | _, [], s, h => by
    simp only [runs_loop, pure_eq_ok, Except.ok.injEq] at h
    exact ⟨[], by simp [List.enumFrom], h.symm⟩
  | idx, rd :: rest, s, h => by
    simp only [runs_loop] at h
    cases hf : run_section e bv multi idx rd with
    | error err => rw [hf, error_bind] at h; exact Except.noConfusion h
    | ok t =>
      rw [hf, ok_bind] at h
      cases hr : runs_loop e bv multi (idx + 1) rest with
      | error err => rw [hr, error_bind] at h; exact Except.noConfusion h
      | ok b =>
        rw [hr, ok_bind, pure_eq_ok] at h
        obtain ⟨ts, hts, hb⟩ := runs_loop_ok_decomp e bv multi (idx + 1) rest b hr
        refine ⟨t :: ts, ?_, ?_⟩
        · exact List.Forall₂.cons hf hts
        · simp only [Except.ok.injEq] at h
          subst hb
          simp [← h, strconcat]

theorem split_initializers_eq (l : List InitConn) :
    split_initializers l =
      (l.filterMap (fun ic =>
        if ic.type = "initializer" then ic.getInitializer else none),
       l.filterMap (fun ic =>
        if ic.type = "initializer" then none else ic.getConnector)) := by
  induction l with
  | nil => rfl
  | cons ic rest ih =>
    cases ic <;>
      simp [split_initializers, ih, InitConn.type, InitConn.getInitializer,
        InitConn.getConnector]

/-- C2: in `create_md_string`'s components loop, a component list produces a
bold group heading (the Brian class name under `brian_verbose`, the
plain-English name otherwise) and one `'- '`-prefixed expansion per member,
expanded in list order by the handler of the key, exactly for the nine keys
of `func_map`; any other key contributes only the loop's trailing newline
and raises no error. -/
theorem component_string_dispatch
    (e : Renderer) (brian_verbose : Bool) (item : CompItem) (s : String)
    (h : component_string e brian_verbose item = .ok s) :
    match item with
    | .neurongroup gs => ∃ ts,
        List.Forall₂ (fun g t => expand_NeuronGroup e g = .ok t) gs ts ∧
        s = bold ((if brian_verbose then "NeuronGroup" else "Neuron group") ++
            (if 1 < gs.length then "s" else "") ++ " defined:") ++ endl ++
          strconcat (ts.map (fun t => "- " ++ t)) ++ endl
    | .poissongroup gs => ∃ ts,
        List.Forall₂ (fun g t => expand_PoissonGroup e g = .ok t) gs ts ∧
        s = bold ((if brian_verbose then "PoissonGroup"
              else "Poisson spike source") ++
            (if 1 < gs.length then "s" else "") ++ " defined:") ++ endl ++
          strconcat (ts.map (fun t => "- " ++ t)) ++ endl
    | .spikegeneratorgroup gs => ∃ ts,
        List.Forall₂ (fun g t => expand_SpikeGeneratorGroup e g = .ok t) gs ts ∧
        s = bold ((if brian_verbose then "SpikeGeneratorGroup"
              else "Spike generating source") ++
            (if 1 < gs.length then "s" else "") ++ " defined:") ++ endl ++
          strconcat (ts.map (fun t => "- " ++ t)) ++ endl
    | .statemonitor ms => ∃ ts,
        List.Forall₂ (fun m t => expand_StateMonitor e m = .ok t) ms ts ∧
        s = bold ((if brian_verbose then "StateMonitor"
              else "Activity recorder") ++
            (if 1 < ms.length then "s" else "") ++ " defined:") ++ endl ++
          strconcat (ts.map (fun t => "- " ++ t)) ++ endl
    | .spikemonitor ms => ∃ ts,
        List.Forall₂ (fun m t => expand_SpikeMonitor e m = .ok t) ms ts ∧
        s = bold ((if brian_verbose then "SpikeMonitor"
              else "Spiking activity recorder") ++
            (if 1 < ms.length then "s" else "") ++ " defined:") ++ endl ++
          strconcat (ts.map (fun t => "- " ++ t)) ++ endl
    | .eventmonitor ms => ∃ ts,
        List.Forall₂ (fun m t => expand_EventMonitor e m = .ok t) ms ts ∧
        s = bold ((if brian_verbose then "EventMonitor"
              else "Event activity recorder") ++
            (if 1 < ms.length then "s" else "") ++ " defined:") ++ endl ++
          strconcat (ts.map (fun t => "- " ++ t)) ++ endl
    | .populationratemonitor ms => ∃ ts,
        List.Forall₂
          (fun m t => expand_PopulationRateMonitor e m = .ok t) ms ts ∧
        s = bold ((if brian_verbose then "PopulationRateMonitor"
              else "Population rate recorder") ++
            (if 1 < ms.length then "s" else "") ++ " defined:") ++ endl ++
          strconcat (ts.map (fun t => "- " ++ t)) ++ endl
    | .synapses ss => ∃ ts,
        List.Forall₂ (fun sy t => expand_Synapses e sy = .ok t) ss ts ∧
        s = bold ((if brian_verbose then "Synapse" else "Synapse") ++
            (if 1 < ss.length then "s" else "") ++ " defined:") ++ endl ++
          strconcat (ts.map (fun t => "- " ++ t)) ++ endl
    | .poissoninput ps => ∃ ts,
        List.Forall₂ (fun p t => expand_PoissonInput e p = .ok t) ps ts ∧
        s = bold ((if brian_verbose then "PoissonInput"
              else "Poisson input") ++
            (if 1 < ps.length then "s" else "") ++ " defined:") ++ endl ++
          strconcat (ts.map (fun t => "- " ++ t)) ++ endl
    | .other _ => s = endl ∧
        component_string e brian_verbose item = .ok endl := by
  cases item with
  | neurongroup gs => exact comp_block_ok_decomp _ _ _ _ _ _ h
  | poissongroup gs => exact comp_block_ok_decomp _ _ _ _ _ _ h
  | spikegeneratorgroup gs => exact comp_block_ok_decomp _ _ _ _ _ _ h
  | statemonitor ms => exact comp_block_ok_decomp _ _ _ _ _ _ h
  | spikemonitor ms => exact comp_block_ok_decomp _ _ _ _ _ _ h
  | eventmonitor ms => exact comp_block_ok_decomp _ _ _ _ _ _ h
  | populationratemonitor ms => exact comp_block_ok_decomp _ _ _ _ _ _ h
  | synapses ss => exact comp_block_ok_decomp _ _ _ _ _ _ h
  | poissoninput ps => exact comp_block_ok_decomp _ _ _ _ _ _ h
  | other key => exact ⟨(Except.ok.inj h).symm, rfl⟩

theorem component_string_dispatch_witness :
    endl = endl ∧
      component_string ⟨fun _ _ => "##", false⟩ false (CompItem.other "custom") =
        .ok endl :=
  component_string_dispatch ⟨fun _ _ => "##", false⟩ false
    (CompItem.other "custom") endl rfl

theorem init_part_ok (e : Renderer) (bv : Bool) (ins : List Initializer)
    (out : String) (h : init_part e bv ins = .ok out) :
    ∃ ts, List.Forall₂ (fun i t => expand_initializer e i = .ok t) ins ts ∧
      out = (if bv then
          bold ("Initializer" ++ (if 1 < ins.length then "s" else "") ++
            " defined:") ++ endl
        else
          bold ("Initializing values at" ++ spaces 41 ++ "starting:") ++
            endl) ++ strconcat (ts.map (fun t => "- " ++ t)) := by
  unfold init_part at h
  cases bv with
  | true =>
    rw [if_pos rfl, check_plural_iter_none, ok_bind, pure_eq_ok, ok_bind,
      init_members_loop_eq] at h
    dsimp only at h
    cases hm : members_loop (expand_initializer e) ins with
    | error err =>
      rw [hm, error_bind] at h
      exact Except.noConfusion h
    | ok b =>
      rw [hm, ok_bind, pure_eq_ok] at h
      obtain ⟨ts, hts, hb⟩ := members_loop_ok_decomp _ ins b hm
      subst hb
      exact ⟨ts, hts, by simp [← Except.ok.inj h]⟩
  | false =>
    rw [if_neg Bool.false_ne_true, pure_eq_ok, ok_bind,
      init_members_loop_eq] at h
    dsimp only at h
    cases hm : members_loop (expand_initializer e) ins with
    | error err =>
      rw [hm, error_bind] at h
      exact Except.noConfusion h
    | ok b =>
      rw [hm, ok_bind, pure_eq_ok] at h
      obtain ⟨ts, hts, hb⟩ := members_loop_ok_decomp _ ins b hm
      subst hb
      exact ⟨ts, hts, by simp [← Except.ok.inj h]⟩

theorem conn_part_ok (e : Renderer) (cons : List Connector) (out : String)
    (h : conn_part e cons = .ok out) :
    ∃ us, List.Forall₂ (fun c u => expand_connector e c = .ok u) cons us ∧
      out = endl ++ bold ("Synaptic Connection" ++
          (if 1 < cons.length then "s" else "") ++ " defined:") ++ endl ++
        strconcat (us.map (fun u => "- " ++ u)) := by
  unfold conn_part at h
  rw [check_plural_iter_none, ok_bind, conn_members_loop_eq] at h
  cases hm : members_loop (expand_connector e) cons with
  | error err => rw [hm, error_bind] at h; exact Except.noConfusion h
  | ok b =>
    rw [hm, ok_bind, pure_eq_ok] at h
    obtain ⟨us, hus, hb⟩ := members_loop_ok_decomp _ cons b hm
    subst hb
    exact ⟨us, hus, by simp [← Except.ok.inj h, str_append_assoc]⟩

theorem inact_part_eq (xs : List String) :
    inact_part xs = .ok (endl ++ bold ("Inactive member" ++
      (if 1 < xs.length then "s" else "") ++ ":") ++ endl ++
      joinSep ", " xs) := by
  unfold inact_part
  rw [check_plural_iter_none, ok_bind, pure_eq_ok]

theorem run_section_ok_decomp (e : Renderer) (bv multi : Bool) (idx : Nat)
    (rd : RunDict) (ins : List Initializer) (cons : List Connector)
    (hsplit : split_initializers (rd.initializers_connectors.getD []) =
      (ins, cons))
    (s : String) (h : run_section e bv multi idx rd = .ok s) :
    ∃ comps ts us,
      components_loop e bv rd.components = .ok comps ∧
      List.Forall₂ (fun i t => expand_initializer e i = .ok t) ins ts ∧
      List.Forall₂ (fun c u => expand_connector e c = .ok u) cons us ∧
      s = ((if multi then
            header ("Run " ++ toString (idx + 1) ++ " details") 3 ++ endl
          else endl) ++
          "Duration of simulation is " ++ bold rd.duration ++ endll) ++
        (comps ++
          ((if ins.isEmpty then "" else
            (if bv then
              bold ("Initializer" ++ (if 1 < ins.length then "s" else "") ++
                " defined:") ++ endl
            else
              bold ("Initializing values at" ++ spaces 41 ++ "starting:") ++
                endl) ++ strconcat (ts.map (fun t => "- " ++ t))) ++
          ((if cons.isEmpty then "" else
            endl ++ bold ("Synaptic Connection" ++
              (if 1 < cons.length then "s" else "") ++ " defined:") ++ endl ++
            strconcat (us.map (fun u => "- " ++ u))) ++
          (match rd.inactive with
           | some xs => endl ++ bold ("Inactive member" ++
               (if 1 < xs.length then "s" else "") ++ ":") ++ endl ++
               joinSep ", " xs
           | none => "")))) := by
  unfold run_section at h
  cases hc : components_loop e bv rd.components with
  | error err => rw [hc, error_bind] at h; exact Except.noConfusion h
  | ok comps =>
    rw [hc, ok_bind] at h
    try dsimp only at h
    rw [hsplit] at h
    try dsimp only at h
    refine Exists.intro comps ?_
    cases ins with
    | nil =>
      rw [if_pos List.isEmpty_nil, pure_eq_ok, ok_bind] at h
      try dsimp only at h
      refine ⟨[], ?_⟩
      cases cons with
      | nil =>
        rw [if_pos List.isEmpty_nil, pure_eq_ok, ok_bind] at h
        try dsimp only at h
        refine ⟨[], rfl, List.Forall₂.nil, List.Forall₂.nil, ?_⟩
        cases hi : rd.inactive with
        | none =>
          rw [hi] at h
          try dsimp only at h
          rw [pure_eq_ok, ok_bind, pure_eq_ok] at h
          simp [← Except.ok.inj h, strconcat, str_append_assoc,
            str_append_empty, str_empty_append]
        | some xs =>
          rw [hi] at h
          try dsimp only at h
          rw [inact_part_eq, ok_bind, pure_eq_ok, ok_bind, pure_eq_ok] at h
          simp [← Except.ok.inj h, strconcat, str_append_assoc,
            str_append_empty, str_empty_append]
      | cons c cs =>
        rw [if_neg (by simp)] at h
        cases hcp : conn_part e (c :: cs) with
        | error err =>
          rw [hcp] at h
          simp only [error_bind] at h
          exact Except.noConfusion h
        | ok cp =>
          rw [hcp, ok_bind, pure_eq_ok, ok_bind] at h
          try dsimp only at h
          obtain ⟨us, hus, hcp_eq⟩ := conn_part_ok e (c :: cs) cp hcp
          subst hcp_eq
          refine ⟨us, rfl, List.Forall₂.nil, hus, ?_⟩
          cases hi : rd.inactive with
          | none =>
            rw [hi] at h
            try dsimp only at h
            rw [pure_eq_ok, ok_bind, pure_eq_ok] at h
            simp [← Except.ok.inj h, strconcat, str_append_assoc,
              str_append_empty, str_empty_append]
          | some xs =>
            rw [hi] at h
            try dsimp only at h
            rw [inact_part_eq, ok_bind, pure_eq_ok, ok_bind, pure_eq_ok] at h
            simp [← Except.ok.inj h, strconcat, str_append_assoc,
              str_append_empty, str_empty_append]
    | cons i is =>
      rw [if_neg (by simp)] at h
      cases hip : init_part e bv (i :: is) with
      | error err =>
        rw [hip] at h
        simp only [error_bind] at h
        exact Except.noConfusion h
      | ok ip =>
        rw [hip, ok_bind, pure_eq_ok, ok_bind] at h
        try dsimp only at h
        obtain ⟨ts, hts, hip_eq⟩ := init_part_ok e bv (i :: is) ip hip
        subst hip_eq
        refine ⟨ts, ?_⟩
        cases cons with
        | nil =>
          rw [if_pos List.isEmpty_nil, pure_eq_ok, ok_bind] at h
          try dsimp only at h
          refine ⟨[], rfl, hts, List.Forall₂.nil, ?_⟩
          cases hi : rd.inactive with
          | none =>
            rw [hi] at h
            try dsimp only at h
            rw [pure_eq_ok, ok_bind, pure_eq_ok] at h
            simp [← Except.ok.inj h, strconcat, str_append_assoc,
              str_append_empty, str_empty_append]
          | some xs =>
            rw [hi] at h
            try dsimp only at h
            rw [inact_part_eq, ok_bind, pure_eq_ok, ok_bind, pure_eq_ok] at h
            simp [← Except.ok.inj h, strconcat, str_append_assoc,
              str_append_empty, str_empty_append]
        | cons c cs =>
          rw [if_neg (by simp)] at h
          cases hcp : conn_part e (c :: cs) with
          | error err =>
            rw [hcp] at h
            simp only [error_bind] at h
            exact Except.noConfusion h
          | ok cp =>
            rw [hcp, ok_bind, pure_eq_ok, ok_bind] at h
            try dsimp only at h
            obtain ⟨us, hus, hcp_eq⟩ := conn_part_ok e (c :: cs) cp hcp
            subst hcp_eq
            refine ⟨us, rfl, hts, hus, ?_⟩
            cases hi : rd.inactive with
            | none =>
              rw [hi] at h
              try dsimp only at h
              rw [pure_eq_ok, ok_bind, pure_eq_ok] at h
              simp [← Except.ok.inj h, strconcat, str_append_assoc,
                str_append_empty, str_empty_append]
            | some xs =>
              rw [hi] at h
              try dsimp only at h
              rw [inact_part_eq, ok_bind, pure_eq_ok, ok_bind, pure_eq_ok] at h
              simp [← Except.ok.inj h, strconcat, str_append_assoc,
                str_append_empty, str_empty_append]

theorem length_eq_isEmpty_eq {β γ : Type} {l1 : List β} {l2 : List γ}
    (h : l1.length = l2.length) : l1.isEmpty = l2.isEmpty := by
  cases l1 <;> cases l2 <;> simp_all

/-- C7: when `initializers_connectors` is absent a run section has neither
an initializer nor a synaptic-connection block; when present, the entries
whose `type` is `'initializer'` are expanded by `expand_initializer` in the
initializer block and all other entries by `expand_connector` in the
synaptic-connection block, the initializer block preceding the connector
block and each block keeping input order. -/
theorem run_section_initializers_connectors
    (e : Renderer) (brian_verbose multi : Bool) (run_indx : Nat)
    (run_dict : RunDict) (s : String)
    (h : run_section e brian_verbose multi run_indx run_dict = .ok s) :
    ∃ comps ts us,
      components_loop e brian_verbose run_dict.components = .ok comps ∧
      List.Forall₂ (fun i t => expand_initializer e i = .ok t)
        ((run_dict.initializers_connectors.getD []).filterMap
          (fun ic => if ic.type = "initializer" then ic.getInitializer
            else none)) ts ∧
      List.Forall₂ (fun c u => expand_connector e c = .ok u)
        ((run_dict.initializers_connectors.getD []).filterMap
          (fun ic => if ic.type = "initializer" then none
            else ic.getConnector)) us ∧
      s = ((if multi then
            header ("Run " ++ toString (run_indx + 1) ++ " details") 3 ++ endl
          else endl) ++
          "Duration of simulation is " ++ bold run_dict.duration ++ endll) ++
        (comps ++
          ((if ts.isEmpty then "" else
            (if brian_verbose then
              bold ("Initializer" ++ (if 1 < ts.length then "s" else "") ++
                " defined:") ++ endl
            else
              bold ("Initializing values at" ++ spaces 41 ++ "starting:") ++
                endl) ++ strconcat (ts.map (fun t => "- " ++ t))) ++
          ((if us.isEmpty then "" else
            endl ++ bold ("Synaptic Connection" ++
              (if 1 < us.length then "s" else "") ++ " defined:") ++ endl ++
            strconcat (us.map (fun u => "- " ++ u))) ++
          (match run_dict.inactive with
           | some xs => endl ++ bold ("Inactive member" ++
               (if 1 < xs.length then "s" else "") ++ ":") ++ endl ++
               joinSep ", " xs
           | none => "")))) ∧
      (run_dict.initializers_connectors = none → ts = [] ∧ us = []) := by
  obtain ⟨comps, ts, us, hc, hts, hus, hs⟩ :=
    run_section_ok_decomp e brian_verbose multi run_indx run_dict _ _
      (split_initializers_eq (run_dict.initializers_connectors.getD []))
      s h
  refine ⟨comps, ts, us, hc, hts, hus, ?_, ?_⟩
  · rw [hs, length_eq_isEmpty_eq hts.length_eq, hts.length_eq,
      length_eq_isEmpty_eq hus.length_eq, hus.length_eq]
  · intro hnone
    constructor
    · have h1 : (run_dict.initializers_connectors.getD []).filterMap
          (fun ic => if ic.type = "initializer" then ic.getInitializer
            else none) = [] := by
        rw [hnone]
        rfl
      rw [h1] at hts
      exact List.forall₂_nil_left_iff.mp hts
    · have h2 : (run_dict.initializers_connectors.getD []).filterMap
          (fun ic => if ic.type = "initializer" then none
            else ic.getConnector) = [] := by
        rw [hnone]
        rfl
      rw [h2] at hus
      exact List.forall₂_nil_left_iff.mp hus

theorem run_section_initializers_connectors_witness :
    ∃ comps ts us,
      components_loop ⟨fun _ _ => "##", false⟩ false [] = .ok comps ∧
      List.Forall₂
        (fun i t => expand_initializer ⟨fun _ _ => "##", false⟩ i = .ok t)
        [] ts ∧
      List.Forall₂
        (fun c u => expand_connector ⟨fun _ _ => "##", false⟩ c = .ok u)
        [] us ∧
      endl ++ "Duration of simulation is " ++ bold "1. s" ++ endll =
        (endl ++ "Duration of simulation is " ++ bold "1. s" ++ endll) ++
        (comps ++
          ((if ts.isEmpty then "" else
            (if false then
              bold ("Initializer" ++ (if 1 < ts.length then "s" else "") ++
                " defined:") ++ endl
            else
              bold ("Initializing values at" ++ spaces 41 ++ "starting:") ++
                endl) ++ strconcat (ts.map (fun t => "- " ++ t))) ++
          ((if us.isEmpty then "" else
            endl ++ bold ("Synaptic Connection" ++
              (if 1 < us.length then "s" else "") ++ " defined:") ++ endl ++
            strconcat (us.map (fun u => "- " ++ u))) ++ ""))) ∧
      ((none : Option (List InitConn)) = none → ts = [] ∧ us = []) :=
  run_section_initializers_connectors ⟨fun _ _ => "##", false⟩ false false 0
    ⟨"1. s", [], none, none⟩
    (endl ++ "Duration of simulation is " ++ bold "1. s" ++ endll) rfl

theorem run_section_head_shape (e : Renderer) (bv multi : Bool) (idx : Nat)
    (rd : RunDict) (t : String)
    (h : run_section e bv multi idx rd = .ok t) :
    ∃ tl, t = ((if multi then
        header ("Run " ++ toString (idx + 1) ++ " details") 3 ++ endl
      else endl) ++
      "Duration of simulation is " ++ bold rd.duration ++ endll) ++ tl := by
  obtain ⟨comps, ts, us, _, _, _, hs⟩ :=
    run_section_ok_decomp e bv multi idx rd _ _
      (split_initializers_eq (rd.initializers_connectors.getD [])) t h
  exact ⟨_, hs⟩

theorem sections_shape (e : Renderer) (bv multi : Bool) :
    ∀ (pairs : List (Nat × RunDict)) (ts : List String),
      List.Forall₂ (fun p t => run_section e bv multi p.1 p.2 = .ok t)
        pairs ts →
      ∃ tails : List String, tails.length = pairs.length ∧
        strconcat ts = strconcat ((pairs.zip tails).map (fun q =>
          ((if multi then
            header ("Run " ++ toString (q.1.1 + 1) ++ " details") 3 ++ endl
          else endl) ++
          "Duration of simulation is " ++ bold q.1.2.duration ++ endll) ++
          q.2))
  | [], ts, h => by
    cases h
    exact ⟨[], rfl, rfl⟩
  | p :: prest, ts, h => by
    cases h with
    | cons hp hrest =>
      obtain ⟨tails, hlen, heq⟩ := sections_shape e bv multi prest _ hrest
      obtain ⟨tl, htl⟩ := run_section_head_shape e bv multi p.1 p.2 _ hp
      refine ⟨tl :: tails, by simp [hlen], ?_⟩
      simp only [strconcat, List.zip_cons_cons, List.map_cons]
      rw [htl, heq]
      rfl

/-- C1: `create_md_string` begins with the level-1 header
`'Network details'`; the network sentence uses `'consists'` with singular
`'simulation run'` exactly when there is at most one run and `'consist'`
with `'simulation runs'` otherwise; the per-run sections follow in
ascending run order, each preceded by a level-3 `'Run k details'` header
(`k` from 1) exactly when there is more than one run, and each states the
run's duration in bold. -/
theorem create_md_string_network_layout
    (L : String → Bool → String) (g : Bool) (m : String)
    (net_dict : List RunDict) (brian_verbose github_md : Bool)
    (e' : MdExpander) (s : String)
    (h : create_md_string ⟨L, g, m⟩ net_dict brian_verbose github_md =
      .ok (e', s)) :
    ∃ tails : List String, tails.length = net_dict.length ∧
      s = header "Network details" 1 ++ endl ++
        "The Network consist" ++ (if 1 < net_dict.length then "" else "s") ++
        " of " ++ bold (toString net_dict.length) ++ " " ++ spaces 27 ++
        "simulation run" ++ (if 1 < net_dict.length then "s" else "") ++
        endl ++ horizontal_rule ++ endl ++
        strconcat ((net_dict.enum.zip tails).map (fun q =>
          (if 1 < net_dict.length then
            header ("Run " ++ toString (q.1.1 + 1) ++ " details") 3 ++ endl
          else endl) ++
          "Duration of simulation is " ++ bold q.1.2.duration ++ endll ++
          q.2)) := by
  unfold create_md_string at h
  rw [check_plural_iter_none, ok_bind] at h
  try dsimp only at h
  cases hr : runs_loop ⟨L, github_md⟩ brian_verbose
      (1 < net_dict.length) 0 net_dict with
  | error err => rw [hr, error_bind] at h; exact Except.noConfusion h
  | ok body =>
    rw [hr, ok_bind, pure_eq_ok] at h
    have hpair := Except.ok.inj h
    rw [Prod.mk.injEq] at hpair
    obtain ⟨-, hs⟩ := hpair
    obtain ⟨ts, hts, hbody⟩ :=
      runs_loop_ok_decomp ⟨L, github_md⟩ brian_verbose
        (1 < net_dict.length) 0 net_dict body hr
    obtain ⟨tails, hlen, hconcat⟩ :=
      sections_shape ⟨L, github_md⟩ brian_verbose (1 < net_dict.length)
        (List.enumFrom 0 net_dict) ts hts
    refine ⟨tails, ?_, ?_⟩
    · rw [hlen, List.enumFrom_length]
    · rw [← hs, hbody, hconcat]
      simp [List.enum, decide_eq_true_eq, str_append_assoc]

theorem create_md_string_network_layout_witness :
    ∃ tails : List String, tails.length = 1 ∧
      ("# Network details\nThe Network consists of **1** " ++ spaces 27 ++
          "simulation run\n" ++ horizontal_rule ++
          "\n\nDuration of simulation is **100. ms**\n\n") =
        header "Network details" 1 ++ endl ++
        "The Network consist" ++ "s" ++
        " of " ++ bold "1" ++ " " ++ spaces 27 ++
        "simulation run" ++ "" ++
        endl ++ horizontal_rule ++ endl ++
        strconcat (((([(⟨"100. ms", [], none, none⟩ : RunDict)]).enum).zip
            tails).map (fun q =>
          endl ++
          "Duration of simulation is " ++ bold q.1.2.duration ++ endll ++
          q.2)) :=
  create_md_string_network_layout (fun _ _ => "##") false ""
    [⟨"100. ms", [], none, none⟩] false false
    ⟨fun _ _ => "##", false,
      "# Network details\nThe Network consists of **1** " ++ spaces 27 ++
        "simulation run\n" ++ horizontal_rule ++
        "\n\nDuration of simulation is **100. ms**\n\n"⟩
    ("# Network details\nThe Network consists of **1** " ++ spaces 27 ++
      "simulation run\n" ++ horizontal_rule ++
      "\n\nDuration of simulation is **100. ms**\n\n") rfl
